import Mathlib

/-!
Shallow embedding of the shsh shell (`src/main.c`) and verification of its
specification.  Pure fragments of the C code become Lean functions; the
OS-dependent parts (environment lookup, `chdir`, the file system, standard
input, external program exit statuses) are passed in as explicit function
parameters.  Process orchestration (`fork`/`pipe`/`wait` bookkeeping in
`lsh_execute` / `lsh_launch`) is modelled by an event-counting semantics:
the model records how many `pipe` and `fork` calls happen, in which process
each `lsh_launch` dispatch runs, which channel descriptors the orchestrating
process still holds when it starts waiting, and the value `lsh_execute`
returns to the interactive loop.  `fork` and `pipe` are assumed to succeed.
-/

/-- `builtin_str` (main.c:35-43): the table of built-in command names, in
dispatch order. -/
def builtin_str : List String :=
  ["cd", "cat", "echo", "help", "exit", "pwd", "sort"]

/-- The dispatch test of `lsh_launch` (main.c:261-263): the first token is a
built-in iff it equals one of the names in `builtin_str`. -/
def isBuiltinName (s : String) : Bool :=
  builtin_str.contains s

/-- Return value of the built-in handler named `s` (main.c:68-250): every
handler returns 1 (`lsh_cd`, `lsh_cat`, `lsh_echo`, `lsh_help`, `lsh_pwd`,
`lsh_sort`) except `lsh_exit` (main.c:185-188), which returns 0. -/
def builtinRet (s : String) : Nat :=
  if s = "exit" then 0 else 1

/-- One chunk written to standard output.  `COut.nullStr` records the call
`printf("%s", p)` with `p == NULL` (main.c:114 when `getenv` misses):
the source hands a null pointer to `printf`, which is undefined behavior,
so the model keeps it as a distinct marker rather than inventing text. -/
inductive COut
  | str (s : String)
  | nullStr
deriving DecidableEq, Repr

/-- Abstraction of `perror("lsh")` output (the OS-supplied message text is
not part of the source). -/
def perror_lsh : String := "lsh: <strerror(errno)>"

/-- `lsh_cd` (main.c:68-78).  `chdirFn path` models `chdir(path)` from the
current OS state: `some c` means success with new working directory `c`,
`none` means failure.  Note the source passes `args[0]` — the first cell of
the argument array it receives, i.e. the command name — to `chdir`, even
though its own doc comment (main.c:65) says `args[1]` is the directory.
Returns (working directory after the call, stderr messages, return value). -/
def lsh_cd (chdirFn : String → Option String) (cwd : String) (args : List String) :
    String × List String × Nat :=
  match args with
  | [] => (cwd, ["lsh: expected argument to \"cd\""], 1)
  | a0 :: _ =>
    match chdirFn a0 with
    | some c => (c, [], 1)
    | none => (cwd, [perror_lsh], 1)

/-- `lsh_pwd` (main.c:86-98); `getcwd` is assumed to succeed and yield the
current working directory `cwd`.  Returns (stdout chunks, return value). -/
def lsh_pwd (cwd : String) (args : List String) : List COut × Nat :=
  match args with
  | [] => ([COut.str "\n"], 1)
  | _ => ([COut.str (cwd ++ "\n")], 1)

/-- One argument of `lsh_echo` (main.c:113-116): an argument whose first
byte is `$` (`args[i][0] == '$'`) is looked up in the environment with
`getenv(args[i] + 1)` — the name is everything after the `$` — and the
result, a null pointer when the variable is unset, is passed to
`printf("%s", ...)`. -/
def echoArg (env : String → Option String) (a : String) : COut :=
  match a.data with
  | '$' :: nameChars =>
    (match env (String.mk nameChars) with
     | some v => COut.str v
     | none => COut.nullStr)
  | _ => COut.str a

/-- The loop of `lsh_echo` (main.c:112-121) over `args[1], args[2], ...`:
each argument is printed, followed by a space, except the last argument,
which is followed by a newline. -/
def echoLoop (env : String → Option String) : List String → List COut
  | [] => []
  | a :: rest =>
    echoArg env a ::
      ((if rest.isEmpty then [COut.str "\n"] else [COut.str " "]) ++ echoLoop env rest)

/-- `lsh_echo` (main.c:106-124).  Returns (stdout chunks, return value).
The `args[0] == NULL` branch (main.c:108-109) prints a bare newline; when
dispatched from `lsh_launch`, `args[0]` is the command name `"echo"`, so
only the loop branch is reachable. -/
def lsh_echo (env : String → Option String) (args : List String) : List COut × Nat :=
  match args with
  | [] => ([COut.str "\n"], 1)
  | _ :: rest => (echoLoop env rest, 1)

/-- The file loop of `lsh_cat` (main.c:145-154): `fs path` models
`open(path, O_RDONLY)` plus the read loop, giving the file contents, or
`none` when the open fails.  The first missing file prints an error and
stops the loop (the function returns), leaving the remaining arguments
unprocessed.  Returns (stdout chunks, stderr messages). -/
def catLoop (fs : String → Option String) : List String → List COut × List String
  | [] => ([], [])
  | f :: restFiles =>
    match fs f with
    | none => ([], ["Error: " ++ f ++ ": file not found"])
    | some content =>
      let r := catLoop fs restFiles
      (COut.str content :: r.1, r.2)

/-- `lsh_cat` (main.c:131-156).  Fewer than two cells in `args` (command
name plus at least one file) is a usage error.  Returns (stdout chunks,
stderr messages, return value). -/
def lsh_cat (fs : String → Option String) (args : List String) :
    List COut × List String × Nat :=
  match args with
  | [] => ([], ["Error: usage: cat filename"], 1)
  | [_] => ([], ["Error: usage: cat filename"], 1)
  | _ :: files =>
    let r := catLoop fs files
    (r.1, r.2, 1)

/-- `lsh_help` (main.c:164-178).  Returns (stdout chunks, return value). -/
def lsh_help (_args : List String) : List COut × Nat :=
  ([COut.str "Shunsuke Haga\x27s SHSH\n",
    COut.str "the forked project from Stephen Brennan\x27s LSH\n",
    COut.str "Type program names and arguments, and hit enter.\n",
    COut.str "The following are built in:\n"]
   ++ builtin_str.map (fun s => COut.str ("  " ++ s ++ "\n"))
   ++ [COut.str "Use the man command for information on other programs.\n"], 1)

/-- `lsh_exit` (main.c:185-188): ignores its arguments and returns 0. -/
def lsh_exit (_args : List String) : Nat := 0

/-- `strcmp(a, b) < 0` on the character lists of the two strings: the C
`strcmp` compares the UTF-8 byte sequences lexicographically, which orders
strings exactly as code-point-wise lexicographic comparison does (UTF-8
preserves code-point order), so comparing `Char.toNat` values char by char
is the byte-wise `strcmp` order. -/
def bytesLt : List Char → List Char → Bool
  | [], [] => false
  | [], _ :: _ => true
  | _ :: _, [] => false
  | a :: as, b :: bs =>
    if a.toNat < b.toNat then true
    else if b.toNat < a.toNat then false
    else bytesLt as bs

/-- `strcmp(a, b) <= 0` as a proposition: `a` is not byte-wise greater
than `b`. -/
def strLe (a b : String) : Prop :=
  bytesLt b.data a.data = false

/-- The inner loop of `lsh_sort`'s bubble sort (main.c:237-243) for a fixed
outer index: the current element `x` at position `i` is compared with each
later element in turn with `strcmp`, swapping whenever
`strcmp(args[i], args[j]) > 0`, i.e. whenever `bytesLt y.data x.data`; the
pass leaves the minimum of `x :: l` in position `i` and the displaced
elements in the later positions.  Returns (minimum, remaining elements in
their post-pass order). -/
def selectMin (x : String) : List String → String × List String
  | [] => (x, [])
  | y :: ys =>
    if bytesLt y.data x.data then
      let p := selectMin y ys
      (p.1, x :: p.2)
    else
      let p := selectMin x ys
      (p.1, y :: p.2)

/-- The outer loop of `lsh_sort`'s bubble sort (main.c:236-244), fueled by
the list length so the recursion is structural. -/
def selSortAux : Nat → List String → List String
  | 0, _ => []
  | _ + 1, [] => []
  | n + 1, x :: xs =>
    let p := selectMin x xs
    p.1 :: selSortAux n p.2

/-- The in-place sort of `lsh_sort` (main.c:236-244), as the list of
elements at positions `1..len-1` after the double loop finishes. -/
def selSort (l : List String) : List String :=
  selSortAux l.length l

/-- The print loop of `lsh_sort` (main.c:247-248): `printf("[%d]: %s\n", i,
args[i])` with `i` running from 1. -/
def numberLines (l : List String) : List String :=
  l.enum.map (fun p => "[" ++ toString (p.1 + 1) ++ "]: " ++ p.2)

/-- The `fgets` reading loop of `lsh_sort` (main.c:208-229) applied to the
byte stream `s` on standard input: each call returns the bytes up to and
including the next newline (or up to end-of-input), `NULL` at end-of-input,
and the loop body truncates the line at its first newline
(`buffer[strcspn(buffer, "\n")] = 0`).  Lines are assumed shorter than the
1024-byte buffer. -/
def splitNl : List Char → List (List Char)
  | [] => [[]]
  | c :: cs =>
    if c = '\n' then [] :: splitNl cs
    else
      match splitNl cs with
      | p :: rest => (c :: p) :: rest
      | [] => [[c]]

def cLines (s : String) : List String :=
  if s.data.isEmpty then []
  else
    let parts := (splitNl s.data).map (fun cs => String.mk cs)
    if parts.getLast? = some "" then parts.dropLast else parts

/-- `lsh_sort` (main.c:196-250).  When `args[1] == NULL` (no arguments),
the lines read from standard input are appended into the argument array at
positions 1, 2, ... (main.c:217); then positions `1..len-1` are sorted in
place and printed with 1-based indices.  Returns (argument array after the
call, stdout lines, return value) — the argument array is mutated: its tail
is the sorted item list. -/
def lsh_sort (stdin : List String) (cmd : String) (rest : List String) :
    List String × List String × Nat :=
  let items := if rest.isEmpty then stdin else rest
  let sorted := selSort items
  (cmd :: sorted, numberLines sorted, 1)

/-- Concatenation of stdout chunks into the byte stream a downstream pipe
reader sees; `none` when a chunk is the undefined `printf("%s", NULL)`. -/
def renderOut : List COut → Option String
  | [] => some ""
  | COut.str s :: rest => (renderOut rest).map (fun t => s ++ t)
  | COut.nullStr :: _ => none

/-- Result of dispatching one pipeline stage (argument array after the
stage, stdout chunks, stderr messages, working directory after the stage,
return value). -/
structure StageRes where
  argsAfter : List String
  out : List COut
  errs : List String
  cwd : String
  ret : Nat
deriving DecidableEq, Repr

/-- The dispatch of `lsh_launch` (main.c:261-263) followed by the chosen
handler, for a stage `cmd :: rest`, in `builtin_str` order; a name matching
no built-in is executed as an external program via `execvp(args[0], args)`
(main.c:271), which does not modify the argument array.  Each handler's
effect on the argument array comes from its own definition above: only
`lsh_sort` writes into it. -/
def dispatchStage (chdirFn env fs : String → Option String) (stdin : List String)
    (cwd : String) (cmd : String) (rest : List String) : StageRes :=
  if cmd = "cd" then
    let r := lsh_cd chdirFn cwd (cmd :: rest)
    ⟨cmd :: rest, [], r.2.1, r.1, r.2.2⟩
  else if cmd = "cat" then
    let r := lsh_cat fs (cmd :: rest)
    ⟨cmd :: rest, r.1, r.2.1, cwd, r.2.2⟩
  else if cmd = "echo" then
    let r := lsh_echo env (cmd :: rest)
    ⟨cmd :: rest, r.1, [], cwd, r.2⟩
  else if cmd = "help" then
    let r := lsh_help (cmd :: rest)
    ⟨cmd :: rest, r.1, [], cwd, r.2⟩
  else if cmd = "exit" then
    ⟨cmd :: rest, [], [], cwd, lsh_exit (cmd :: rest)⟩
  else if cmd = "pwd" then
    let r := lsh_pwd cwd (cmd :: rest)
    ⟨cmd :: rest, r.1, [], cwd, r.2⟩
  else if cmd = "sort" then
    let r := lsh_sort stdin cmd rest
    ⟨r.1, (r.2.1).map COut.str, [], cwd, r.2.2⟩
  else
    ⟨cmd :: rest, [], [], cwd, 1⟩

/-- What one call to `lsh_launch` does.  `builtinRun name` is the built-in
branch (main.c:261-263): the handler runs in the calling process.
`extRun cmd status` is the external branch (main.c:267-282): one new
process is forked whose image is replaced by `cmd` (or which exits with
`EXIT_FAILURE` when `execvp` fails) and which terminates with exit status
`status`.  `nullCmdUB` records that `args[0]` is `NULL`, so
`strcmp(args[0], "cd")` at main.c:262 reads through a null pointer —
undefined behavior, in practice a crash of that process; no error message
is printed and no stage is skipped on purpose. -/
inductive LAct
  | builtinRun (name : String)
  | extRun (cmd : String) (status : Nat)
  | nullCmdUB
deriving DecidableEq, Repr

/-- Result of one `lsh_launch` call: how many processes the call itself
forks, what it does, and its return value (`none` when the call never
returns because of the `nullCmdUB` undefined behavior). -/
structure LaunchRes where
  forks : Nat
  act : LAct
  ret : Option Nat
deriving DecidableEq, Repr

/-- `lsh_launch` (main.c:257-284).  `execOk cmd` models whether
`execvp(cmd, ...)` succeeds; `progStatus cmd` is the exit status of the
external program `cmd` when it runs.  On the external path the caller
forks exactly one child (`fork()` is assumed to succeed), waits for it,
discards its exit status, and returns 1 (main.c:283). -/
def lsh_launch (execOk : String → Bool) (progStatus : String → Nat)
    (stage : List String) : LaunchRes :=
  match stage with
  | [] => { forks := 0, act := LAct.nullCmdUB, ret := none }
  | cmd :: _ =>
    if isBuiltinName cmd then
      { forks := 0, act := LAct.builtinRun cmd, ret := some (builtinRet cmd) }
    else
      { forks := 1,
        act := LAct.extRun cmd (if execOk cmd then progStatus cmd % 256 else 1),
        ret := some 1 }

/-- `pipe_count` (main.c:308-315): the number of `"|"` tokens. -/
def pipeCount (tokens : List String) : Nat :=
  tokens.countP (fun t => t == "|")

/-- The stage decomposition induced by main.c:308-315 overwriting every
`"|"` token with `NULL` together with the stage start indices
`pipe_locate[i] + 1` (main.c:354): stage `i` is the token segment between
separator `i` and the next separator (or the end).  Always yields
`pipeCount tokens + 1` stages; leading, trailing or doubled separators
yield empty stages. -/
def splitStages : List String → List (List String)
  | [] => [[]]
  | t :: ts =>
    if t == "|" then [] :: splitStages ts
    else
      match splitStages ts with
      | s :: rest => (t :: s) :: rest
      | [] => [[t]]

/-- One end of a channel: read or write. -/
inductive PEnd
  | r
  | w
deriving DecidableEq, Repr

/-- One iteration `i` of the orchestration loop (main.c:333-361) as seen by
the parent process's set of open channel descriptors: if `i != pipe_count`
a channel `i` is created (`pipe(pfd[i])`, main.c:334-336), and after the
fork, if `i > 0`, the parent closes both ends of channel `i - 1`
(main.c:356-360). -/
def orchStep (pc : Nat) (fds : List (Nat × PEnd)) (i : Nat) : List (Nat × PEnd) :=
  let fds2 := if i ≠ pc then fds ++ [(i, PEnd.r), (i, PEnd.w)] else fds
  if 0 < i then fds2.filter (fun f => f.1 != i - 1) else fds2

/-- The channel descriptors still open in the parent process after the
whole orchestration loop, i.e. when the parent reaches the wait loop
(main.c:363-365). -/
def parentFdsAtWait (pc : Nat) : List (Nat × PEnd) :=
  (List.range (pc + 1)).foldl (orchStep pc) []

/-- Result of one `lsh_execute` call.  `forksTop` counts `fork()` calls
made by the interactive (top) process itself; `forksTotal` counts `fork()`
calls made anywhere in the resulting process tree.  `topLaunches` lists the
`lsh_launch` calls executed by the interactive process itself (the source
has none: both call sites, main.c:323 and main.c:354, are inside a forked
child); `childLaunches` lists the `lsh_launch` calls executed in forked
children, in stage order.  `parentFds` is the list of channel descriptors
the interactive process still holds when it begins waiting; `ret` is the
value returned to `lsh_loop`. -/
structure ExecRes where
  pipes : Nat
  forksTop : Nat
  forksTotal : Nat
  topLaunches : List LaunchRes
  childLaunches : List LaunchRes
  parentFds : List (Nat × PEnd)
  ret : Nat
deriving DecidableEq, Repr

/-- `lsh_execute` (main.c:291-367), with `fork` and `pipe` assumed to
succeed.  Empty token array: return 1 (main.c:297-300).  No pipe
(main.c:318-331): fork one child, which runs `lsh_launch(args)` and exits
with its return value; the parent returns `WEXITSTATUS` of that child.
Otherwise (main.c:333-366): for each stage fork one child that dispatches
the stage through `lsh_launch` and then exits with 0, create
`pipe_count` channels, close the parent's copies per `orchStep`, wait for
every stage child, and return 1.  `pipe_locate[10]` and `pfd[9][2]` are
fixed-size arrays (main.c:302, main.c:317), so a token sequence with more
than 9 `"|"` separators overruns them: the model is `none` there. -/
def lsh_execute (execOk : String → Bool) (progStatus : String → Nat)
    (tokens : List String) : Option ExecRes :=
  match tokens with
  | [] => some ⟨0, 0, 0, [], [], [], 1⟩
  | t :: ts =>
    let args := t :: ts
    let pc := pipeCount args
    if pc = 0 then
      let lr := lsh_launch execOk progStatus args
      some { pipes := 0, forksTop := 1, forksTotal := 1 + lr.forks,
             topLaunches := [], childLaunches := [lr],
             parentFds := [],
             ret := (lr.ret.getD 0) % 256 }
    else if pc ≤ 9 then
      let lrs := (splitStages args).map (lsh_launch execOk progStatus)
      some { pipes := pc, forksTop := pc + 1,
             forksTotal := (pc + 1) + (lrs.map LaunchRes.forks).sum,
             topLaunches := [], childLaunches := lrs,
             parentFds := parentFdsAtWait pc,
             ret := 1 }
    else none

/-! ### Helper lemmas about the byte-wise order and the selection-sort
loops of `lsh_sort` -/

theorem bytesLt_self (a : List Char) : bytesLt a a = false := by
  induction a with
  | nil => rfl
  | cons c cs ih => simp [bytesLt, ih]

theorem bytesLt_asymm (a b : List Char) (h : bytesLt a b = true) :
    bytesLt b a = false := by
  induction a generalizing b with
  | nil =>
    cases b with
    | nil => exact absurd h (by simp [bytesLt])
    | cons y ys => rfl
  | cons x xs ih =>
    cases b with
    | nil => exact absurd h (by simp [bytesLt])
    | cons y ys =>
      simp only [bytesLt] at h ⊢
      by_cases h1 : x.toNat < y.toNat
      · have h2 : ¬ y.toNat < x.toNat := by omega
        simp [h1, h2]
      · by_cases h2 : y.toNat < x.toNat
        · simp [h1, h2] at h
        · simp only [h1, h2, if_false] at h
          simp [h1, h2, ih ys h]

theorem bytesLt_le_trans (a b c : List Char)
    (hab : bytesLt b a = false) (hbc : bytesLt c b = false) :
    bytesLt c a = false := by
  induction a generalizing b c with
  | nil =>
    cases c with
    | nil => rfl
    | cons z zs => rfl
  | cons x xs ih =>
    cases b with
    | nil => exact absurd hab (by simp [bytesLt])
    | cons y ys =>
      cases c with
      | nil => exact absurd hbc (by simp [bytesLt])
      | cons z zs =>
        simp only [bytesLt] at hab hbc ⊢
        by_cases h1 : y.toNat < x.toNat
        · simp [h1] at hab
        · by_cases h2 : z.toNat < y.toNat
          · simp [h2] at hbc
          · by_cases h3 : z.toNat < x.toNat
            · omega
            · by_cases h4 : x.toNat < z.toNat
              · simp [h3, h4]
              · have h5 : x.toNat = y.toNat := by omega
                have h6 : y.toNat = z.toNat := by omega
                have h7 : ¬ x.toNat < y.toNat := by omega
                have h8 : ¬ y.toNat < z.toNat := by omega
                simp only [h1, h7, if_false] at hab
                simp only [h2, h8, if_false] at hbc
                simp [h3, h4, ih ys zs hab hbc]

theorem strLe_refl (a : String) : strLe a a :=
  bytesLt_self a.data

theorem strLe_trans (a b c : String) (hab : strLe a b) (hbc : strLe b c) :
    strLe a c :=
  bytesLt_le_trans a.data b.data c.data hab hbc

theorem selectMin_len (x : String) (l : List String) :
    (selectMin x l).2.length = l.length := by
  induction l generalizing x with
  | nil => rfl
  | cons y ys ih =>
    simp only [selectMin]
    by_cases h : bytesLt y.data x.data = true
    · simp [h, ih]
    · simp only [Bool.not_eq_true] at h
      simp [h, ih]

theorem selectMin_perm (x : String) (l : List String) :
    ((selectMin x l).1 :: (selectMin x l).2).Perm (x :: l) := by
  induction l generalizing x with
  | nil => exact List.Perm.refl _
  | cons y ys ih =>
    simp only [selectMin]
    by_cases h : bytesLt y.data x.data = true
    · simp only [h, if_true]
      exact (List.Perm.swap x (selectMin y ys).1 (selectMin y ys).2).trans
        ((ih y).cons x)
    · simp only [Bool.not_eq_true] at h
      simp only [h, Bool.false_eq_true, if_false]
      exact ((List.Perm.swap y (selectMin x ys).1 (selectMin x ys).2).trans
        ((ih x).cons y)).trans (List.Perm.swap x y ys)

theorem selectMin_le (x : String) (l : List String) :
    ∀ z ∈ (x :: l), strLe (selectMin x l).1 z := by
  induction l generalizing x with
  | nil =>
    intro z hz
    rw [List.mem_singleton.mp hz]
    exact strLe_refl _
  | cons y ys ih =>
    intro z hz
    simp only [selectMin]
    by_cases h : bytesLt y.data x.data = true
    · simp only [h, if_true]
      rcases List.mem_cons.mp hz with h1 | h1
      · subst h1
        exact strLe_trans _ y _ (ih y y (List.mem_cons_self _ _))
          (bytesLt_asymm _ _ h)
      · exact ih y z h1
    · simp only [Bool.not_eq_true] at h
      simp only [h, Bool.false_eq_true, if_false]
      rcases List.mem_cons.mp hz with h1 | h1
      · subst h1
        exact ih z z (List.mem_cons_self _ _)
      · rcases List.mem_cons.mp h1 with h2 | h2
        · subst h2
          exact strLe_trans _ x _ (ih x x (List.mem_cons_self _ _)) h
        · exact ih x z (List.mem_cons_of_mem _ h2)

theorem selectMin_le_rest (x : String) (l : List String) :
    ∀ z ∈ (selectMin x l).2, strLe (selectMin x l).1 z := by
  intro z hz
  exact selectMin_le x l z
    ((selectMin_perm x l).mem_iff.mp (List.mem_cons_of_mem _ hz))

theorem selSortAux_perm :
    ∀ (n : Nat) (l : List String), l.length ≤ n → (selSortAux n l).Perm l := by
  intro n
  induction n with
  | zero =>
    intro l h
    have : l = [] := List.eq_nil_of_length_eq_zero (Nat.le_zero.mp h)
    subst this
    exact List.Perm.refl _
  | succ n ih =>
    intro l h
    cases l with
    | nil => exact List.Perm.refl _
    | cons x xs =>
      have hlen : (selectMin x xs).2.length ≤ n := by
        rw [selectMin_len]
        exact Nat.le_of_succ_le_succ h
      exact ((ih _ hlen).cons _).trans (selectMin_perm x xs)

theorem selSortAux_sorted :
    ∀ (n : Nat) (l : List String), l.length ≤ n →
      List.Sorted strLe (selSortAux n l) := by
  intro n
  induction n with
  | zero =>
    intro l _
    simp only [selSortAux]
    exact List.sorted_nil
  | succ n ih =>
    intro l h
    cases l with
    | nil =>
      simp only [selSortAux]
      exact List.sorted_nil
    | cons x xs =>
      have hlen : (selectMin x xs).2.length ≤ n := by
        rw [selectMin_len]
        exact Nat.le_of_succ_le_succ h
      simp only [selSortAux]
      refine List.sorted_cons.mpr ⟨?_, ih _ hlen⟩
      intro b hb
      exact selectMin_le_rest x xs b ((selSortAux_perm n _ hlen).mem_iff.mp hb)

theorem selSort_perm (l : List String) : (selSort l).Perm l :=
  selSortAux_perm l.length l le_rfl

theorem selSort_sorted (l : List String) :
    List.Sorted strLe (selSort l) :=
  selSortAux_sorted l.length l le_rfl

/-! ### Helper lemmas about the orchestration loop -/

theorem orchStep_inv (pc : Nat) (hpc : 1 ≤ pc) :
    ∀ i, 1 ≤ i → i ≤ pc →
      (List.range i).foldl (orchStep pc) [] =
        [(i - 1, PEnd.r), (i - 1, PEnd.w)] := by
  intro i
  induction i with
  | zero => intro h _; exact absurd h (by decide)
  | succ n ih =>
    intro _ hle
    rw [List.range_succ, List.foldl_append]
    rcases Nat.eq_zero_or_pos n with h0 | hpos
    · subst h0
      have hne : (0 : Nat) ≠ pc := by omega
      simp [orchStep, hne]
    · rw [ih hpos (by omega)]
      have hne : n ≠ pc := by omega
      have hne2 : n ≠ n - 1 := by omega
      simp [orchStep, hne, hne2, hpos]

theorem parentFdsAtWait_eq_nil (pc : Nat) (hpc : 1 ≤ pc) :
    parentFdsAtWait pc = [] := by
  unfold parentFdsAtWait
  rw [List.range_succ, List.foldl_append, orchStep_inv pc hpc pc hpc le_rfl]
  have hlt : 0 < pc := hpc
  simp [orchStep, hlt]

theorem launch_forks_sum (execOk : String → Bool) (progStatus : String → Nat)
    (stages : List (List String)) :
    ((stages.map (lsh_launch execOk progStatus)).map LaunchRes.forks).sum
      = stages.countP (fun s => !s.isEmpty && !isBuiltinName (s.headD "")) := by
  induction stages with
  | nil => rfl
  | cons s ss ih =>
    simp only [List.map_cons, List.sum_cons, List.countP_cons, ih]
    cases s with
    | nil => simp [lsh_launch]
    | cons c cs =>
      by_cases hb : isBuiltinName c
      · simp [lsh_launch, hb]
      · simp [lsh_launch, hb]
        omega

/-! ### Claim theorems -/

/-- C1 counterexample: for the single pipe-free built-in command `cd /`,
`lsh_execute` creates one process (`fork` at main.c:320) — not zero — and
runs no `lsh_launch` dispatch in the interactive process itself, so the
built-in handler executes in the child, not in the interactive process. -/
theorem c1_counterexample :
    (lsh_execute (fun _ => true) (fun _ => 0) ["cd", "/"]).map
        (fun r => (r.forksTotal, r.topLaunches)) = some (1, []) ∧ (1 : Nat) ≠ 0 :=
  ⟨rfl, by decide⟩

/-- C1 (amended): for every single command with no pipe whose first token
names a built-in, exactly one process is created; the built-in handler runs
inside that forked child (never in the interactive process, so a directory
change does not affect the interactive process), and the handler's
continuation value is propagated back to the interactive process as the
child's exit status, which `lsh_execute` returns. -/
theorem c1_single_builtin (execOk : String → Bool) (progStatus : String → Nat)
    (cmd : String) (rest : List String)
    (hb : isBuiltinName cmd = true)
    (hp : pipeCount (cmd :: rest) = 0) :
    lsh_execute execOk progStatus (cmd :: rest) =
      some { pipes := 0, forksTop := 1, forksTotal := 1,
             topLaunches := [],
             childLaunches := [⟨0, LAct.builtinRun cmd, some (builtinRet cmd)⟩],
             parentFds := [],
             ret := builtinRet cmd % 256 } := by
  simp [lsh_execute, hp, lsh_launch, hb]

/-- C1 witness: the amended statement instantiated at `cd /`. -/
theorem c1_witness :
    isBuiltinName "cd" = true ∧ pipeCount ["cd", "/"] = 0 ∧
    lsh_execute (fun _ => true) (fun _ => 0) ["cd", "/"] =
      some { pipes := 0, forksTop := 1, forksTotal := 1,
             topLaunches := [],
             childLaunches := [⟨0, LAct.builtinRun "cd", some (builtinRet "cd")⟩],
             parentFds := [],
             ret := builtinRet "cd" % 256 } :=
  ⟨by decide, by decide,
    c1_single_builtin (fun _ => true) (fun _ => 0) "cd" ["/"] (by decide) (by decide)⟩

/-- C2 counterexample: for the single pipe-free external command `ls`,
where the external program exits with status 42, two processes are created
(the `fork` at main.c:320 and the `fork` at main.c:268), and `lsh_execute`
returns 1 — `lsh_launch` discards the program's exit status (main.c:283) —
not 42. -/
theorem c2_counterexample :
    (lsh_execute (fun _ => true) (fun _ => 42) ["ls"]).map
        (fun r => (r.forksTotal, r.ret)) = some (2, 1) ∧
      (2 : Nat) ≠ 1 ∧ (1 : Nat) ≠ 42 :=
  ⟨rfl, by decide, by decide⟩

/-- C2 (amended): for every single command with no pipe whose first token
is not a built-in name, exactly two processes are created — a child running
`lsh_launch` and a grandchild whose image is replaced by the external
program — and the external program's exit status is discarded:
`lsh_launch` returns 1 regardless, so `lsh_execute` returns 1 (the
intermediate child's exit status), not the program's status. -/
theorem c2_single_external (execOk : String → Bool) (progStatus : String → Nat)
    (cmd : String) (rest : List String)
    (hb : isBuiltinName cmd = false)
    (hp : pipeCount (cmd :: rest) = 0) :
    lsh_execute execOk progStatus (cmd :: rest) =
      some { pipes := 0, forksTop := 1, forksTotal := 2,
             topLaunches := [],
             childLaunches :=
               [⟨1, LAct.extRun cmd (if execOk cmd then progStatus cmd % 256 else 1),
                 some 1⟩],
             parentFds := [],
             ret := 1 } := by
  simp [lsh_execute, hp, lsh_launch, hb]

/-- C2 witness: the amended statement instantiated at `ls` with program
exit status 42. -/
theorem c2_witness :
    isBuiltinName "ls" = false ∧ pipeCount ["ls"] = 0 ∧
    lsh_execute (fun _ => true) (fun _ => 42) ["ls"] =
      some { pipes := 0, forksTop := 1, forksTotal := 2,
             topLaunches := [],
             childLaunches := [⟨1, LAct.extRun "ls" 42, some 1⟩],
             parentFds := [],
             ret := 1 } :=
  ⟨by decide, by decide, by
    have h := c2_single_external (fun _ => true) (fun _ => 42) "ls" []
      (by decide) (by decide)
    simpa using h⟩

/-- C3: the change-directory built-in passes `args[0]` — the command name
`"cd"` — to `chdir` (main.c:73) instead of the path argument `args[1]`
named by its own doc comment (main.c:65).  At the failing input
`cd /tmp`, in an OS state where changing to `/tmp` would succeed and no
entry named `cd` exists, the working directory stays unchanged and an
error is reported, while the claim says it changes to `/tmp` with no
error. -/
theorem c3_cd_failing_eval :
    lsh_cd (fun s => if s = "/tmp" then some "/tmp" else none) "/home" ["cd", "/tmp"]
      = ("/home", [perror_lsh], 1) := rfl

/-- C4 counterexample: for the 2-stage pipeline `ls | wc` with both stages
external, four processes are created — two stage children (main.c:337) and
one `execvp` grandchild per stage (main.c:268) — not N = 2. -/
theorem c4_counterexample :
    (lsh_execute (fun _ => true) (fun _ => 0) ["ls", "|", "wc"]).map ExecRes.forksTotal
      = some 4 ∧ (4 : Nat) ≠ 2 :=
  ⟨rfl, by decide⟩

/-- C4 (amended): for every pipeline of `N = pipeCount + 1 ≥ 2` stages (and
at most 9 separators, the capacity of the source's fixed arrays), the
orchestrating process creates exactly `N − 1` channels and exactly `N`
stage processes, and each stage whose command is external creates one
further process inside its stage child; no descriptor referencing a
channel endpoint remains open in the parent process once it begins
waiting. -/
theorem c4_pipeline_resources (execOk : String → Bool) (progStatus : String → Nat)
    (tokens : List String)
    (h1 : 1 ≤ pipeCount tokens) (h9 : pipeCount tokens ≤ 9) :
    ∃ r, lsh_execute execOk progStatus tokens = some r ∧
      r.pipes = pipeCount tokens ∧
      r.forksTop = pipeCount tokens + 1 ∧
      r.forksTotal = (pipeCount tokens + 1) +
        (splitStages tokens).countP
          (fun s => !s.isEmpty && !isBuiltinName (s.headD "")) ∧
      r.parentFds = [] := by
  cases tokens with
  | nil => simp [pipeCount] at h1
  | cons t ts =>
    have hne : ¬ pipeCount (t :: ts) = 0 := by omega
    refine ⟨{ pipes := pipeCount (t :: ts),
              forksTop := pipeCount (t :: ts) + 1,
              forksTotal := (pipeCount (t :: ts) + 1) +
                (((splitStages (t :: ts)).map
                  (lsh_launch execOk progStatus)).map LaunchRes.forks).sum,
              topLaunches := [],
              childLaunches := (splitStages (t :: ts)).map (lsh_launch execOk progStatus),
              parentFds := parentFdsAtWait (pipeCount (t :: ts)),
              ret := 1 }, ?_, rfl, rfl, ?_, ?_⟩
    · simp only [lsh_execute]
      rw [if_neg hne, if_pos h9]
    · simp only
      rw [launch_forks_sum]
    · exact parentFdsAtWait_eq_nil _ h1

/-- C4 witness: the amended statement instantiated at `ls | wc`. -/
theorem c4_witness :
    1 ≤ pipeCount ["ls", "|", "wc"] ∧ pipeCount ["ls", "|", "wc"] ≤ 9 ∧
    (∃ r, lsh_execute (fun _ => true) (fun _ => 0) ["ls", "|", "wc"] = some r ∧
      r.pipes = pipeCount ["ls", "|", "wc"] ∧
      r.forksTop = pipeCount ["ls", "|", "wc"] + 1 ∧
      r.forksTotal = (pipeCount ["ls", "|", "wc"] + 1) +
        (splitStages ["ls", "|", "wc"]).countP
          (fun s => !s.isEmpty && !isBuiltinName (s.headD "")) ∧
      r.parentFds = []) :=
  ⟨by decide, by decide,
    c4_pipeline_resources (fun _ => true) (fun _ => 0) ["ls", "|", "wc"]
      (by decide) (by decide)⟩

/-- C5: at the failing input `ls |` (trailing pipe separator, so the second
stage is empty), no user error is reported and the pipeline is not
aborted: both stage children are forked, and the empty stage's child runs
`lsh_launch` on a `NULL` command name, reaching
`strcmp(args[0], builtin_str[j])` with `args[0] == NULL` (main.c:262) —
undefined behavior (`LAct.nullCmdUB`), in practice a crash of that child.
Only the claim's last part holds: the parent still returns 1. -/
theorem c5_empty_stage_failing_eval :
    (lsh_execute (fun _ => true) (fun _ => 0) ["ls", "|"]).map
        (fun r => (r.childLaunches.map LaunchRes.act, r.ret))
      = some ([LAct.extRun "ls" 0, LAct.nullCmdUB], 1) := rfl

/-- C6: `exit` entered alone makes `lsh_execute` return 0 (the child exits
with `lsh_exit`'s return value 0 and the parent propagates `WEXITSTATUS`,
main.c:323-329), terminating the interactive loop; any token sequence
containing at least one pipe separator takes the pipeline path, which
returns 1 regardless of the stages (main.c:366), so a piped `exit` never
terminates the interactive loop. -/
theorem c6_exit_semantics (execOk : String → Bool) (progStatus : String → Nat) :
    (lsh_execute execOk progStatus ["exit"]).map ExecRes.ret = some 0 ∧
    ∀ tokens r, 1 ≤ pipeCount tokens →
      lsh_execute execOk progStatus tokens = some r → r.ret = 1 := by
  constructor
  · rfl
  · intro tokens r h1 he
    cases tokens with
    | nil => simp [pipeCount] at h1
    | cons t ts =>
      have hne : ¬ pipeCount (t :: ts) = 0 := by omega
      simp only [lsh_execute] at he
      rw [if_neg hne] at he
      by_cases h9 : pipeCount (t :: ts) ≤ 9
      · rw [if_pos h9] at he
        cases he
        rfl
      · rw [if_neg h9] at he
        exact absurd he (by simp)

/-- C6 witness: `exit` alone returns 0, and `sort | exit` (a 2-stage
pipeline with `exit` as a stage) returns 1. -/
theorem c6_witness :
    (lsh_execute (fun _ => true) (fun _ => 0) ["exit"]).map ExecRes.ret = some 0 ∧
    1 ≤ pipeCount ["sort", "|", "exit"] ∧
    ExecRes.ret { pipes := 1, forksTop := 2, forksTotal := 2,
                  topLaunches := [],
                  childLaunches := [⟨0, LAct.builtinRun "sort", some 1⟩,
                                    ⟨0, LAct.builtinRun "exit", some 0⟩],
                  parentFds := [], ret := 1 } = 1 ∧
    lsh_execute (fun _ => true) (fun _ => 0) ["sort", "|", "exit"] =
      some { pipes := 1, forksTop := 2, forksTotal := 2,
             topLaunches := [],
             childLaunches := [⟨0, LAct.builtinRun "sort", some 1⟩,
                               ⟨0, LAct.builtinRun "exit", some 0⟩],
             parentFds := [], ret := 1 } :=
  ⟨(c6_exit_semantics (fun _ => true) (fun _ => 0)).1,
   by decide,
   (c6_exit_semantics (fun _ => true) (fun _ => 0)).2 ["sort", "|", "exit"]
     _ (by decide) rfl,
   rfl⟩

/-- C7: at the failing input `echo $HOME` in an environment where `HOME` is
unset, `getenv` returns `NULL` and the source passes it straight to
`printf("%s", ...)` (main.c:114) — undefined behavior (glibc prints
`(null)`), not the empty string the claim describes; the trailing newline
then follows. -/
theorem c7_echo_unset_failing_eval :
    lsh_echo (fun _ => none) ["echo", "$HOME"]
      = ([COut.nullStr, COut.str "\n"], 1) := rfl

/-- C8 counterexample: piping `echo a b c` into `sort` yields the single
line `[1]: a b c`, not the three lines `[1]: a`, `[2]: b`, `[3]: c`:
`echo` emits all its arguments on one line, and `sort`'s no-argument mode
reads whole lines with `fgets` (main.c:210). -/
theorem c8_counterexample :
    (renderOut (lsh_echo (fun _ => none) ["echo", "a", "b", "c"]).1).map
        (fun s => (lsh_sort (cLines s) "sort" []).2.1)
      = some ["[1]: a b c"] ∧
    (["[1]: a b c"] : List String) ≠ ["[1]: a", "[2]: b", "[3]: c"] :=
  ⟨rfl, by decide⟩

/-- C8 (amended): `sort` prints its arguments (or, with no arguments, the
lines collected from standard input until end-of-input) sorted ascending
by byte-wise string comparison, with 1-indexed output lines; but piping
`echo a b c` into `sort` yields the single line `[1]: a b c`, because
`echo` writes its arguments space-separated on one line and `sort` reads
whole lines. -/
theorem c8_sort_behaviour (stdin : List String) (cmd : String) (rest : List String) :
    ∃ items : List String,
      items.Perm (if rest.isEmpty then stdin else rest) ∧
      List.Sorted strLe items ∧
      (lsh_sort stdin cmd rest).2.1 = numberLines items ∧
      renderOut (lsh_echo (fun _ => none) ["echo", "a", "b", "c"]).1 = some "a b c\n" ∧
      (lsh_sort (cLines "a b c\n") "sort" []).2.1 = ["[1]: a b c"] :=
  ⟨selSort (if rest.isEmpty then stdin else rest),
   selSort_perm _, selSort_sorted _, rfl, rfl, rfl⟩

/-- C9 counterexample: dispatching the stage `sort b a` mutates the
argument array: after the stage it is `["sort", "a", "b"]`, no longer the
original `["sort", "b", "a"]` — `lsh_sort` swaps the argument strings in
place (main.c:238-242). -/
theorem c9_counterexample :
    (dispatchStage (fun _ => none) (fun _ => none) (fun _ => none) [] "/"
        "sort" ["b", "a"]).argsAfter = ["sort", "a", "b"] ∧
    (["sort", "a", "b"] : List String) ≠ ["sort", "b", "a"] :=
  ⟨rfl, by decide⟩

/-- C9 (amended): the argument list a stage executes is unmodified between
dispatch and stage completion for every command except the `sort`
built-in, which permutes its argument strings in place into ascending
order (and, when invoked with no arguments, appends the lines collected
from standard input into the array). -/
theorem c9_args_frame (chdirFn env fs : String → Option String)
    (stdin : List String) (cwd : String) (cmd : String) (rest : List String)
    (hs : cmd ≠ "sort") :
    (dispatchStage chdirFn env fs stdin cwd cmd rest).argsAfter = cmd :: rest := by
  unfold dispatchStage
  split_ifs <;> simp_all

/-- C9 witness: the amended frame statement instantiated at the stage
`echo x`. -/
theorem c9_witness :
    ("echo" : String) ≠ "sort" ∧
    (dispatchStage (fun _ => none) (fun _ => none) (fun _ => none) [] "/"
        "echo" ["x"]).argsAfter = ["echo", "x"] :=
  ⟨by decide,
   c9_args_frame (fun _ => none) (fun _ => none) (fun _ => none) [] "/"
     "echo" ["x"] (by decide)⟩

/-- C10: invoking the echo built-in with zero arguments after the command
name prints nothing — not even a trailing newline: the loop at
main.c:112-121 never runs, the newline is emitted only after a last
argument, and the `args[0] == NULL` newline branch (main.c:108-109) is
unreachable from dispatch because element 0 is the command name `"echo"`. -/
theorem c10_echo_no_args (env : String → Option String) :
    lsh_echo env ["echo"] = ([], 1) := rfl
